import Mathlib

/- Verification of the seed-image generator (src/seed_images/generate.py).

   The Python source is embedded shallowly:
   * machine floats become exact rationals; the transcendental primitives
     `math.sqrt`, `math.sin`, `math.cos`, `math.atan2`, `**` and Python's
     integer `hash` are abstracted into a record of functions (`MathOps`),
     so every theorem holds for any implementation of those primitives
     (hypotheses state only the accuracy actually needed);
   * Python's mutable pixel list becomes a `List ℤ` threaded through folds;
   * operations that can raise in Python (`struct.pack` overflow, `bytes`
     range errors, reading a never-assigned variable) return `Option`. -/

namespace Seed

/-- RGB color triple, the `(r, g, b)` tuples of the Python source. -/
abbrev Color := ℤ × ℤ × ℤ

/-- Python `int(v)`: truncation of a real (here rational) value toward zero. -/
def pyInt (q : ℚ) : ℤ := if q < 0 then -⌊-q⌋ else ⌊q⌋

/-- Embedding of `lerp_color` (generate.py lines 45-46): componentwise
`int(c1[i] + (c2[i] - c1[i]) * t)`. -/
def lerp_color (a b : Color) (t : ℚ) : Color :=
  (pyInt ((a.1 : ℚ) + ((b.1 : ℚ) - (a.1 : ℚ)) * t),
   pyInt ((a.2.1 : ℚ) + ((b.2.1 : ℚ) - (a.2.1 : ℚ)) * t),
   pyInt ((a.2.2 : ℚ) + ((b.2.2 : ℚ) - (a.2.2 : ℚ)) * t))

/-- Embedding of `clamp` (generate.py lines 48-49): `max(lo, min(hi, int(v)))`
with the default bounds `lo = 0`, `hi = 255`, the only ones the source uses. -/
def clamp (v : ℚ) : ℤ := max 0 (min 255 (pyInt v))

/-- The numeric primitives the generator calls but does not define:
`math.sqrt`, `math.sin`, `math.cos`, `math.atan2`, float `**`, and Python's
(deterministic for ints) `hash` on an int (`hashI`) and on a pair (`hashP`).
Theorems quantify over this record. -/
structure MathOps where
  sqrt : ℚ → ℚ
  sin : ℚ → ℚ
  cos : ℚ → ℚ
  atan2 : ℚ → ℚ → ℚ
  pow : ℚ → ℚ → ℚ
  hashI : ℤ → ℤ
  hashP : ℤ → ℤ → ℤ

/-- `SIZE = 512` (generate.py line 23). -/
def SIZE : ℕ := 512

/-- The `"sunset"` branch (generate.py lines 60-73). -/
def sunsetColor (ops : MathOps) (c1 c2 c3 : Color) (fx fy : ℚ) : Color :=
  let base := lerp_color c3 c1 fy
  let sun_dist := ops.sqrt ((fx - 1/2)^2 + (fy - 2/5)^2)
  let base := if sun_dist < 15/100 then
      let t := 1 - sun_dist / (15/100)
      lerp_color base (255, 220, 100) (ops.pow t (1/2))
    else base
  if fy > 65/100 then
    let wave := ops.sin (fx * 30 + fy * 10) * (3/100)
    let ref_y := 1 - (fy - 65/100 + wave) / (35/100)
    let ref_color := lerp_color c3 c2 ref_y
    lerp_color base ref_color (6/10)
  else base

/-- The `"genesis"` branch (generate.py lines 75-86). -/
def genesisColor (ops : MathOps) (c1 c2 c3 : Color) (fx fy : ℚ) (x y : ℕ) : Color :=
  let rgb := lerp_color c3 c1 (fy * (1/2) + fx * (1/2))
  let rgb := [((3:ℚ)/10, (3:ℚ)/10, (2:ℚ)/10), (7/10, 5/10, 15/100), (5/10, 7/10, 18/100)].foldl
    (fun rgb cc =>
      let d := ops.sqrt ((fx - cc.1)^2 + (fy - cc.2.1)^2)
      if d < cc.2.2 then
        let t := 1 - d / cc.2.2
        let shape_c := lerp_color c2 c1 t
        lerp_color rgb shape_c (t * (8/10))
      else rgb) rgb
  if x % 64 < 2 ∨ y % 64 < 2 then
    (min 255 (rgb.1 + 40), min 255 (rgb.2.1 + 40), min 255 (rgb.2.2 + 40))
  else rgb

/-- The `"moscow"` branch (generate.py lines 88-105). -/
def moscowColor (ops : MathOps) (c1 c2 : Color) (h x y : ℕ) : Color :=
  let rgb := c1
  let bx : ℤ := ((x / 40 : ℕ) : ℤ) * 40
  let building_h : ℤ := 100 + ops.hashI bx % 250
  let rgb :=
    if (y : ℤ) > (h : ℤ) - building_h ∧ x % 40 > 2 ∧ x % 40 < 38 then
      let rgb : Color := (30, 30, 50)
      if (x % 40) % 8 > 2 ∧ (x % 40) % 8 < 6 ∧ y % 12 > 2 ∧ y % 12 < 8 then
        let brightness := ops.hashP bx ((y / 12 : ℕ) : ℤ) % 3
        if brightness > 0 then lerp_color (30, 30, 50) c2 (1/2 + (brightness : ℚ) * (1/4))
        else rgb
      else rgb
    else rgb
  if (y : ℤ) < (h : ℤ) - 100 ∧ ops.hashP ((x / 3 : ℕ) : ℤ) ((y / 3 : ℕ) : ℤ) % 200 = 0 then
    (220, 220, 255)
  else rgb

/-- The `"chaos"` branch (generate.py lines 107-118). -/
def chaosColor (ops : MathOps) (c1 c2 c3 : Color) (fx fy : ℚ) (x y : ℕ) : Color :=
  let angle := ops.atan2 (fy - 1/2) (fx - 1/2)
  let dist := ops.sqrt ((fx - 1/2)^2 + (fy - 1/2)^2)
  let swirl := ops.sin (angle * 3 + dist * 15) * (1/2) + 1/2
  let rgb := if swirl > 1/2 then lerp_color c1 c2 ((swirl - 1/2) * 2)
             else lerp_color c3 c1 (swirl * 2)
  let noise : ℤ := ops.hashP ((x : ℤ) * 7) ((y : ℤ) * 13) % 30 - 15
  (clamp ((rgb.1 + noise : ℤ) : ℚ), clamp ((rgb.2.1 + noise : ℤ) : ℚ),
   clamp ((rgb.2.2 + noise : ℤ) : ℚ))

/-- The `"retro"` branch (generate.py lines 120-138). Note the grid is based on
the global `SIZE`, not on the width/height arguments. -/
def retroColor (c1 c2 : Color) (x y : ℕ) : Color :=
  let px := x / 16
  let py := y / 16
  let grid := SIZE / 16
  let cx := grid / 2
  let cy := grid / 2
  let rgb : Color := if (px + py) % 2 = 0 then (40, 40, 40) else (50, 50, 50)
  let dx := ((px : ℤ) - (cx : ℤ)).natAbs
  let dy := ((py : ℤ) - (cy : ℤ)).natAbs
  if dx < 4 ∧ dy < 6 then
    let rgb :=
      if dy < 2 ∧ dx < 3 then c1
      else if dy ≥ 2 ∧ dy < 5 ∧ dx < 3 then c2
      else if dy ≥ 5 ∧ dx < 2 then (100, 100, 200)
      else rgb
    if dy = 1 ∧ dx = 1 then (255, 255, 255) else rgb
  else rgb

/-- The `"cube"` branch (generate.py lines 140-157). -/
def cubeColor (c1 c2 c3 : Color) (fx fy : ℚ) : Color :=
  let rgb := lerp_color c3 (20, 20, 40) fy
  let dx := fx - 1/2
  let dy := fy - 1/2
  let rgb := if |dx + dy * (1/2)| < 2/10 ∧ -(3/10) < dy ∧ dy < -(5/100) then
      let t := (dy + 3/10) / (25/100)
      lerp_color c1 (200, 200, 255) t
    else rgb
  let rgb := if -(2/10) < dx ∧ dx < 0 ∧ -(5/100) < dy ∧ dy < 25/100 then
      let t := dy / (3/10)
      lerp_color c2 (50, 0, 30) t
    else rgb
  if 0 < dx ∧ dx < 2/10 ∧ -(5/100) < dy ∧ dy < 25/100 then
    let t := dy / (3/10)
    lerp_color c1 c2 t
  else rgb

/-- The `"neural"` branch (generate.py lines 159-178). -/
def neuralColor (ops : MathOps) (c1 c2 : Color) (fx fy : ℚ) : Color :=
  let rgb : Color := (10, 10, 20)
  (List.range 5).foldl (fun rgb (layer : ℕ) =>
    let lx : ℚ := 1/10 + (layer : ℚ) * (2/10)
    let nodes : ℕ := 3 + layer % 3
    (List.range nodes).foldl (fun rgb (n : ℕ) =>
      let ny : ℚ := ((n : ℚ) + 1) / ((nodes : ℚ) + 1)
      let d := ops.sqrt ((fx - lx)^2 + (fy - ny)^2)
      let rgb := if d < 4/100 then
          let t := 1 - d / (4/100)
          let node_c := lerp_color c1 c2 ((layer : ℚ) / 4)
          lerp_color rgb node_c (ops.pow t (1/2))
        else rgb
      if d < 8/100 then
        let t := 1 - d / (8/100)
        (clamp ((rgb.1 + pyInt (t * 30) : ℤ) : ℚ), clamp ((rgb.2.1 + pyInt (t * 20) : ℤ) : ℚ),
         clamp ((rgb.2.2 + pyInt (t * 40) : ℤ) : ℚ))
      else rgb) rgb) rgb

/-- The `"algorithm"` branch (generate.py lines 180-189). -/
def algorithmColor (ops : MathOps) (c1 c2 c3 : Color) (fx fy : ℚ) : Color :=
  let dist := ops.sqrt ((fx - 1/2)^2 + (fy - 1/2)^2)
  let angle := ops.atan2 (fy - 1/2) (fx - 1/2)
  let spiral := ops.sin (dist * 40 - angle * 5) * (1/2) + 1/2
  let golden := ops.sin (dist * 25 + angle * 8) * (1/2) + 1/2
  if spiral > 1/2 then lerp_color c1 c2 golden else lerp_color c3 c1 golden

/-- The `"baikal"` branch (generate.py lines 191-202). -/
def baikalColor (ops : MathOps) (c1 c2 : Color) (fx fy : ℚ) (x y : ℕ) : Color :=
  let base := lerp_color c2 c1 fy
  let crack := ops.sin (fx * 50 + ops.sin (fy * 30) * 3) * ops.cos (fy * 40 + ops.sin (fx * 20) * 2)
  let base := if |crack| < 5/100 then lerp_color base (255, 255, 255) (7/10) else base
  let spot := ops.hashP ((x / 20 : ℕ) : ℤ) ((y / 20 : ℕ) : ℤ) % 100
  if spot < 10 ∧ fy < 4/10 then lerp_color base (240, 245, 255) (3/10) else base

/-- The `"cosmic"` branch (generate.py lines 204-220). -/
def cosmicColor (ops : MathOps) (c1 c2 c3 : Color) (fx fy : ℚ) (x y : ℕ) : Color :=
  let rgb := c1
  let rgb := [((3:ℚ)/10, (4:ℚ)/10, (3:ℚ)/10, c2), (7/10, 6/10, 25/100, c3),
      (5/10, 3/10, 2/10, ((255:ℤ), (100:ℤ), (50:ℤ)))].foldl
    (fun rgb nb =>
      let d := ops.sqrt ((fx - nb.1)^2 + (fy - nb.2.1)^2)
      if d < nb.2.2.1 then
        let t := 1 - d / nb.2.2.1
        let noise := ops.sin (fx * 30 + fy * 20) * ops.cos (fx * 15 - fy * 25) * (3/10)
        let t := max 0 (min 1 (t + noise))
        lerp_color rgb nb.2.2.2 (t * (7/10))
      else rgb) rgb
  let star_hash := ops.hashP ((x : ℤ) * 3) ((y : ℤ) * 7)
  if star_hash % 300 = 0 then
    let brightness := 150 + star_hash % 105
    (clamp ((rgb.1 + brightness : ℤ) : ℚ), clamp ((rgb.2.1 + brightness : ℤ) : ℚ),
     clamp ((rgb.2.2 + brightness : ℤ) : ℚ))
  else rgb

/-- The per-pixel dispatch of `generate_artwork` (generate.py lines 56-220):
normalized coordinates `fx = x/w`, `fy = y/h`, then the `if/elif` chain on the
style string.  `none` models the `NameError` raised at the final stores when no
branch assigned `r, g, b`. -/
def styleColor (ops : MathOps) (style : String) (colors : Color × Color × Color)
    (w h x y : ℕ) : Option Color :=
  let c1 := colors.1
  let c2 := colors.2.1
  let c3 := colors.2.2
  let fx : ℚ := (x : ℚ) / (w : ℚ)
  let fy : ℚ := (y : ℚ) / (h : ℚ)
  if style = "sunset" then some (sunsetColor ops c1 c2 c3 fx fy)
  else if style = "genesis" then some (genesisColor ops c1 c2 c3 fx fy x y)
  else if style = "moscow" then some (moscowColor ops c1 c2 h x y)
  else if style = "chaos" then some (chaosColor ops c1 c2 c3 fx fy x y)
  else if style = "retro" then some (retroColor c1 c2 x y)
  else if style = "cube" then some (cubeColor c1 c2 c3 fx fy)
  else if style = "neural" then some (neuralColor ops c1 c2 fx fy)
  else if style = "algorithm" then some (algorithmColor ops c1 c2 c3 fx fy)
  else if style = "baikal" then some (baikalColor ops c1 c2 fx fy x y)
  else if style = "cosmic" then some (cosmicColor ops c1 c2 c3 fx fy x y)
  else none

/-- Total version of `styleColor` (defaulting to black for an unknown style);
used to express the result of `generate_artwork` for the ten known styles. -/
def styleColorD (ops : MathOps) (style : String) (colors : Color × Color × Color)
    (w h x y : ℕ) : Color :=
  (styleColor ops style colors w h x y).getD (0, 0, 0)

/-- The ten style names of the `if/elif` chain of `generate_artwork`. -/
abbrev styleKnown (s : String) : Prop :=
  s = "sunset" ∨ s = "genesis" ∨ s = "moscow" ∨ s = "chaos" ∨ s = "retro" ∨
  s = "cube" ∨ s = "neural" ∨ s = "algorithm" ∨ s = "baikal" ∨ s = "cosmic"

/-- The three stores `pixels[idx] = clamp(r)` … `pixels[idx+2] = clamp(b)`
(generate.py lines 222-224). -/
def pixStore (pix : List ℤ) (idx : ℕ) (c : Color) : List ℤ :=
  ((pix.set idx (clamp (c.1 : ℚ))).set (idx + 1) (clamp (c.2.1 : ℚ))).set (idx + 2)
    (clamp (c.2.2 : ℚ))

/-- Embedding of `generate_artwork` (generate.py lines 51-226): a buffer of
`w*h*3` zeros, written pixel by pixel in row-major order; `none` if the
per-pixel color is undefined (unknown style). -/
def generate_artwork (ops : MathOps) (style : String) (colors : Color × Color × Color)
    (w h : ℕ) : Option (List ℤ) :=
  (List.range h).foldl (fun opix y =>
    (List.range w).foldl (fun opix x =>
      opix.bind fun pix =>
        (styleColor ops style colors w h x y).map fun c => pixStore pix ((y * w + x) * 3) c)
      opix)
    (some (List.replicate (w * h * 3) 0))

/-- The pixel buffer as a flat concatenation of clamped per-pixel triples;
`generate_artwork` provably produces exactly this list for known styles. -/
def flatPixels (cf : ℕ → ℕ → Color) (w h : ℕ) : List ℤ :=
  (List.range h).flatMap fun y =>
    (List.range w).flatMap fun x =>
      [clamp (((cf x y).1 : ℚ)), clamp (((cf x y).2.1 : ℚ)), clamp (((cf x y).2.2 : ℚ))]

/-- Color triple stored for pixel `(x, y)` in a row-major `w`-wide buffer. -/
def bufPixel (buf : List ℤ) (w x y : ℕ) : Color :=
  (buf.getD ((y * w + x) * 3) 0, buf.getD ((y * w + x) * 3 + 1) 0,
   buf.getD ((y * w + x) * 3 + 2) 0)

/-- Squared euclidean distance between two RGB colors. -/
def rgbDistSq (a b : Color) : ℤ :=
  (a.1 - b.1)^2 + (a.2.1 - b.2.1)^2 + (a.2.2 - b.2.2)^2

/-- A trivial instantiation of the numeric primitives, used by witnesses. -/
def zeroOps : MathOps :=
  ⟨fun _ => 0, fun _ => 0, fun _ => 0, fun _ _ => 0, fun _ _ => 0, fun _ => 0, fun _ _ => 0⟩

/-- An instantiation of the numeric primitives whose square root is exact on
the sun-distance argument of the sunset center pixel, returns a value above
`3/20` on the corner pixel's argument, and whose power function lands in the
true range of `(95/96) ** 0.5`; used by the sunset witness. -/
def ops8 : MathOps :=
  ⟨fun q => if q ≤ 1/409600 then 1/640 else 16/25, fun _ => 0, fun _ => 0, fun _ _ => 0,
   fun _ _ => 9948/10000, fun _ => 0, fun _ _ => 0⟩

/-- Big-endian 4-byte encoding, the byte list `struct.pack('>I', n)` produces. -/
def u32be (n : ℕ) : List ℕ := [n / 2^24 % 256, n / 2^16 % 256, n / 2^8 % 256, n % 256]

/-- `struct.pack('>I', n)`: raises (here `none`) unless `n < 2^32`. -/
def pack32 (n : ℕ) : Option (List ℕ) := if n < 2^32 then some (u32be n) else none

/-- Bit-serial rounds of the reflected CRC-32 with polynomial `0xEDB88320`. -/
def crcRounds : ℕ → ℕ → ℕ
  | 0, c => c
  | k + 1, c => crcRounds k (if c % 2 = 1 then c / 2 ^^^ 0xEDB88320 else c / 2)

/-- CRC-32 state update by one byte. -/
def crc32Update (c b : ℕ) : ℕ := crcRounds 8 (c ^^^ b)

/-- `zlib.crc32`: the standard IEEE CRC-32 checksum (init and final xor
`0xFFFFFFFF`). -/
def crc32 (data : List ℕ) : ℕ := data.foldl crc32Update 0xFFFFFFFF ^^^ 0xFFFFFFFF

/-- The inner `chunk` helper of `make_png` (generate.py lines 27-29):
4-byte big-endian payload length, type tag, payload, then the CRC-32 of
`type ++ payload`; the source masks the checksum with `& 0xffffffff`,
embedded as `% 2^32`. -/
def chunk (ctype data : List ℕ) : Option (List ℕ) :=
  (pack32 data.length).bind fun lenB =>
    (pack32 (crc32 (ctype ++ data) % 2^32)).map fun crcB =>
      lenB ++ (ctype ++ data) ++ crcB

/-- The chunk byte layout stated by the spec: length field equal to the payload
length, then tag, payload, and the CRC-32 of `tag ++ payload`. -/
def chunkBytes (ctype data : List ℕ) : List ℕ :=
  u32be data.length ++ ctype ++ data ++ u32be (crc32 (ctype ++ data) % 2^32)

/-- The fixed 8-byte PNG signature `b'\x89PNG\r\n\x1a\n'`. -/
def pngSig : List ℕ := [0x89, 0x50, 0x4E, 0x47, 0x0D, 0x0A, 0x1A, 0x0A]

/-- Chunk type tag `IHDR` as bytes. -/
def IHDRty : List ℕ := [0x49, 0x48, 0x44, 0x52]

/-- Chunk type tag `IDAT` as bytes. -/
def IDATty : List ℕ := [0x49, 0x44, 0x41, 0x54]

/-- Chunk type tag `IEND` as bytes. -/
def IENDty : List ℕ := [0x49, 0x45, 0x4E, 0x44]

/-- The IHDR payload `struct.pack('>IIBBBBB', w, h, 8, 2, 0, 0, 0)`
(generate.py line 32): width, height, bit depth 8, color type 2,
compression 0, filter 0, interlace 0. -/
def ihdrPayload (w h : ℕ) : Option (List ℕ) :=
  (pack32 w).bind fun wb => (pack32 h).map fun hb => wb ++ hb ++ [8, 2, 0, 0, 0]

/-- Python `bytes(l)`: succeeds only when every entry is a byte value. -/
def pyBytes (l : List ℕ) : Option (List ℕ) :=
  if l.all (fun v => v < 256) then some l else none

/-- The raw scanline buffer of `make_png` (generate.py lines 34-39): for each
row a filter byte `0`, then `bytes(pixels[idx:idx+3])` for each pixel (Python
slices clip at the end of the list). -/
def rawScanlines (pixels : List ℕ) (w h : ℕ) : Option (List ℕ) :=
  (List.range h).foldl (fun acc y =>
    (List.range w).foldl (fun acc x =>
      acc.bind fun r =>
        (pyBytes ((pixels.drop ((y * w + x) * 3)).take 3)).map fun b => r ++ b)
      (acc.map fun r => r ++ [0]))
    (some [])

/-- Embedding of `make_png` (generate.py lines 25-43), parametrized by the
deflate compressor `zlib.compress(·, 9)` which the source takes from the
standard library. -/
def make_png (compress : List ℕ → List ℕ) (pixels : List ℕ) (w h : ℕ) : Option (List ℕ) :=
  (ihdrPayload w h).bind fun ihdrP =>
    (chunk IHDRty ihdrP).bind fun ihdr =>
      (rawScanlines pixels w h).bind fun raw =>
        (chunk IDATty (compress raw)).bind fun idat =>
          (chunk IENDty []).map fun iend => pngSig ++ ihdr ++ idat ++ iend

/-- Big-endian value of a byte list. -/
def beVal (l : List ℕ) : ℕ := l.foldl (fun a b => a * 256 + b) 0

/-- Conformant chunk reader: length field, type tag, payload of exactly the
stated length, and a CRC field that must equal the CRC-32 of
`type ++ payload`; returns the chunk and the remaining stream. -/
def readChunk (s : List ℕ) : Option ((List ℕ × List ℕ) × List ℕ) :=
  if 12 + beVal (s.take 4) ≤ s.length ∧
      (s.drop (8 + beVal (s.take 4))).take 4 =
        u32be (crc32 ((s.drop 4).take 4 ++ (s.drop 8).take (beVal (s.take 4))) % 2^32) then
    some (((s.drop 4).take 4, (s.drop 8).take (beVal (s.take 4))),
      s.drop (12 + beVal (s.take 4)))
  else none

/-- Reverse the scanline filtering for filter method 0: each of the `h` rows
must start with filter type byte `0` followed by `3*w` reconstructed bytes. -/
def defilterRows (w : ℕ) : ℕ → List ℕ → Option (List ℕ)
  | 0, s => if s = [] then some [] else none
  | hh + 1, s =>
    match s with
    | 0 :: rest =>
      if 3 * w ≤ rest.length then
        (defilterRows w hh (rest.drop (3 * w))).map fun tl => rest.take (3 * w) ++ tl
      else none
    | _ => none

/-- A conformant decoder for the streams this encoder emits: checks the
signature, reads IHDR (verifying length 13, compression/filter/interlace 0,
bit depth 8, truecolor, positive dimensions), a single IDAT whose payload it
inflates with `decompress`, and an empty terminal IEND, then undoes the
filter-0 scanline framing.  Returns width, height, bit depth, color type and
the pixel bytes. -/
def parsePNG (decompress : List ℕ → List ℕ) (s : List ℕ) :
    Option (ℕ × ℕ × ℕ × ℕ × List ℕ) :=
  if s.take 8 = pngSig then
    (readChunk (s.drop 8)).bind fun c1 =>
      if c1.1.1 = IHDRty ∧ c1.1.2.length = 13 ∧ c1.1.2.drop 10 = [0, 0, 0] ∧
          c1.1.2.getD 8 0 = 8 ∧ c1.1.2.getD 9 0 = 2 ∧
          1 ≤ beVal (c1.1.2.take 4) ∧ 1 ≤ beVal ((c1.1.2.drop 4).take 4) then
        (readChunk c1.2).bind fun c2 =>
          if c2.1.1 = IDATty then
            (readChunk c2.2).bind fun c3 =>
              if c3.1.1 = IENDty ∧ c3.1.2 = [] ∧ c3.2 = [] then
                (defilterRows (beVal (c1.1.2.take 4)) (beVal ((c1.1.2.drop 4).take 4))
                    (decompress c2.1.2)).map fun pix =>
                  (beVal (c1.1.2.take 4), beVal ((c1.1.2.drop 4).take 4),
                   c1.1.2.getD 8 0, c1.1.2.getD 9 0, pix)
              else none
          else none
      else none
  else none

/-- The hardcoded artwork table `ARTWORKS` (generate.py lines 10-21):
identifier, style, and the palette of three colors. -/
def ARTWORKS : List (String × String × (Color × Color × Color)) :=
  [("b0000001-0000-0000-0000-000000000001", "sunset",
     ((255, 120, 50), (255, 80, 120), (40, 20, 80))),
   ("b0000001-0000-0000-0000-000000000002", "genesis",
     ((0, 200, 255), (100, 0, 200), (0, 50, 100))),
   ("b0000001-0000-0000-0000-000000000003", "moscow",
     ((20, 20, 60), (255, 200, 50), (100, 100, 200))),
   ("b0000001-0000-0000-0000-000000000004", "chaos",
     ((200, 0, 50), (50, 0, 200), (255, 255, 0))),
   ("b0000001-0000-0000-0000-000000000005", "retro",
     ((0, 200, 0), (200, 0, 200), (50, 50, 50))),
   ("b0000001-0000-0000-0000-000000000006", "cube",
     ((0, 100, 255), (255, 0, 100), (0, 255, 200))),
   ("b0000001-0000-0000-0000-000000000007", "neural",
     ((150, 0, 255), (0, 255, 150), (255, 150, 0))),
   ("b0000001-0000-0000-0000-000000000008", "algorithm",
     ((255, 200, 0), (0, 100, 200), (200, 50, 100))),
   ("b0000001-0000-0000-0000-000000000009", "baikal",
     ((200, 230, 255), (100, 150, 200), (180, 220, 240))),
   ("b0000001-0000-0000-0000-000000000010", "cosmic",
     ((80, 0, 120), (200, 100, 255), (0, 50, 100)))]

/-- Upload URL `f"http://192.168.1.54:9000/artworks/{uuid}.png"`
(generate.py line 245). -/
def uploadUrl (uuid : String) : String :=
  "http://192.168.1.54:9000/artworks/" ++ uuid ++ ".png"

/-- Local file path `os.path.join(out_dir, f"{uuid}.png")` (lines 236, 244). -/
def filePath (out_dir uuid : String) : String := out_dir ++ "/" ++ uuid ++ ".png"

/-- The PNG byte stream produced for one artwork record: generated pixels
(clamped, hence bytes) fed into the encoder at `SIZE` by `SIZE`. -/
def pngFor (ops : MathOps) (compress : List ℕ → List ℕ)
    (r : String × String × (Color × Color × Color)) : Option (List ℕ) :=
  (generate_artwork ops r.2.1 r.2.2 SIZE SIZE).bind fun px =>
    make_png compress (px.map Int.toNat) SIZE SIZE

/-- The local files written by the first loop of `main` (lines 231-239):
association of file path to file content. -/
def savedFiles (ops : MathOps) (compress : List ℕ → List ℕ) (out_dir : String) :
    List (String × Option (List ℕ)) :=
  ARTWORKS.map fun r => (filePath out_dir r.1, pngFor ops compress r)

/-- Body of the PUT request for one artwork: the content of the file
`curl --data-binary @filepath` reads back in the second loop (line 250). -/
def uploadBody (ops : MathOps) (compress : List ℕ → List ℕ) (out_dir uuid : String) :
    Option (List ℕ) :=
  ((savedFiles ops compress out_dir).lookup (filePath out_dir uuid)).join

/-- Observable steps of `main`, in order: per-record pixel generation, PNG
encoding, local save, HTTP PUT (with URL, `Content-Type` header and body),
and upload-status report. -/
inductive Ev where
  | generate (uuid : String)
  | encode (uuid : String)
  | save (uuid : String)
  | put (uuid : String) (url : String) (contentType : String) (body : Option (List ℕ))
  | report (uuid : String)

/-- Kind index and artwork identifier of an event (0 generate, 1 encode,
2 save, 3 put, 4 report). -/
def evTag : Ev → ℕ × String
  | .generate u => (0, u)
  | .encode u => (1, u)
  | .save u => (2, u)
  | .put u _ _ _ => (3, u)
  | .report u => (4, u)

/-- URL, content type and body of a PUT event. -/
def putInfo : Ev → Option (String × String × Option (List ℕ))
  | .put _ url ct body => some (url, ct, body)
  | _ => none

/-- The event trace of `main` (generate.py lines 228-256): a first loop over
`ARTWORKS` generating, encoding and saving every artwork, then a second loop
issuing one PUT (with `Content-Type: image/png` and the saved file as body)
and one status report per artwork. -/
def mainTrace (ops : MathOps) (compress : List ℕ → List ℕ) (out_dir : String) : List Ev :=
  (ARTWORKS.flatMap fun r => [Ev.generate r.1, Ev.encode r.1, Ev.save r.1]) ++
  (ARTWORKS.flatMap fun r =>
    [Ev.put r.1 (uploadUrl r.1) ("image/png")
       (uploadBody ops compress out_dir r.1), Ev.report r.1])

/-- Style name of the fifth artwork record. -/
def retroStyle : String := "retro"

/-- Palette of the `"retro"` artwork record. -/
def retroPalette : Color × Color × Color := ((0, 200, 0), (200, 0, 200), (50, 50, 50))

/-- Style name of the first artwork record. -/
def sunsetStyle : String := "sunset"

/-- Palette of the `"sunset"` artwork record. -/
def sunsetPalette : Color × Color × Color := ((255, 120, 50), (255, 80, 120), (40, 20, 80))

/-- A style name outside the ten-branch dispatch. -/
def unknownStyle : String := "noir"

/-- Folding an option-threaded step that always succeeds from a `some` state
yields `some` of the plain fold. -/
theorem foldl_some_lift {σ α : Type _} (F : Option σ → α → Option σ) (G : σ → α → σ)
    (hs : ∀ s a, F (some s) a = some (G s a)) :
    ∀ (l : List α) (init : σ), l.foldl F (some init) = some (l.foldl G init)
  | [], _ => rfl
  | a :: tl, init => by
    rw [List.foldl_cons, List.foldl_cons, hs]
    exact foldl_some_lift F G hs tl (G init a)

/-- Folding a step that preserves `none` from a `none` state stays `none`. -/
theorem foldl_none_fix {σ α : Type _} (F : Option σ → α → Option σ)
    (hn : ∀ a, F none a = none) : ∀ l : List α, l.foldl F none = none
  | [] => rfl
  | a :: tl => by rw [List.foldl_cons, hn]; exact foldl_none_fix F hn tl

/-- On a known style the per-pixel dispatch succeeds, with value `styleColorD`. -/
theorem styleColor_known (ops : MathOps) (colors : Color × Color × Color)
    (w h x y : ℕ) {style : String} (hk : styleKnown style) :
    styleColor ops style colors w h x y = some (styleColorD ops style colors w h x y) := by
  rcases hk with rfl | rfl | rfl | rfl | rfl | rfl | rfl | rfl | rfl | rfl <;> rfl

/-- On an unknown style the per-pixel dispatch fails. -/
theorem styleColor_unknown (ops : MathOps) (colors : Color × Color × Color)
    (w h x y : ℕ) {style : String} (hk : ¬ styleKnown style) :
    styleColor ops style colors w h x y = none := by
  simp only [styleKnown, not_or] at hk
  obtain ⟨h1, h2, h3, h4, h5, h6, h7, h8, h9, h10⟩ := hk
  simp [styleColor, h1, h2, h3, h4, h5, h6, h7, h8, h9, h10]

/-- Setting just past a prefix writes into the head of the suffix. -/
theorem set_append_zero {α : Type _} :
    ∀ (A : List α) (b : α) (R : List α) (v : α), (A ++ b :: R).set A.length v = A ++ v :: R
  | [], _, _, _ => rfl
  | a :: tl, b, R, v => by
    simp only [List.cons_append, List.length_cons, List.set_cons_succ]
    rw [set_append_zero tl b R v]

/-- Setting one past a prefix writes into the second cell of the suffix. -/
theorem set_append_one {α : Type _} :
    ∀ (A : List α) (b0 b1 : α) (R : List α) (v : α),
      (A ++ b0 :: b1 :: R).set (A.length + 1) v = A ++ b0 :: v :: R
  | [], _, _, _, _ => rfl
  | a :: tl, b0, b1, R, v => by
    simp only [List.cons_append, List.length_cons, List.set_cons_succ]
    rw [set_append_one tl b0 b1 R v]

/-- Setting two past a prefix writes into the third cell of the suffix. -/
theorem set_append_two {α : Type _} :
    ∀ (A : List α) (b0 b1 b2 : α) (R : List α) (v : α),
      (A ++ b0 :: b1 :: b2 :: R).set (A.length + 2) v = A ++ b0 :: b1 :: v :: R
  | [], _, _, _, _, _ => rfl
  | a :: tl, b0, b1, b2, R, v => by
    simp only [List.cons_append, List.length_cons, List.set_cons_succ]
    rw [set_append_two tl b0 b1 b2 R v]

/-- The three clamped stores of one pixel, applied to a buffer made of a
filled prefix and a zero suffix, extend the prefix by the pixel triple. -/
theorem pixStore_append (A : List ℤ) (m : ℕ) (c : Color) :
    pixStore (A ++ List.replicate (3 + m) 0) A.length c =
      A ++ [clamp (c.1 : ℚ), clamp (c.2.1 : ℚ), clamp (c.2.2 : ℚ)] ++ List.replicate m 0 := by
  have h3 : List.replicate (3 + m) (0 : ℤ) = 0 :: 0 :: 0 :: List.replicate m 0 := by
    rw [show 3 + m = (m + 1 + 1) + 1 from by omega, List.replicate_succ,
      show m + 1 + 1 = (m + 1) + 1 from rfl, List.replicate_succ, List.replicate_succ]
  rw [h3]
  unfold pixStore
  rw [set_append_zero, set_append_one, set_append_two]
  simp

/-- Length of a flat list of per-index triples. -/
theorem flatMap_triple_length {α : Type _} (f g k : α → ℤ) :
    ∀ l : List α, (l.flatMap fun a => [f a, g a, k a]).length = 3 * l.length
  | [] => rfl
  | a :: tl => by
    simp only [List.flatMap_cons, List.length_append, flatMap_triple_length f g k tl,
      List.length_cons, List.length_nil]
    omega

/-- Length of a flat of constant-length pieces. -/
theorem flatMap_const_length {α β : Type _} (f : α → List β) (k : ℕ)
    (hf : ∀ a, (f a).length = k) : ∀ l : List α, (l.flatMap f).length = l.length * k
  | [] => by simp
  | a :: tl => by
    rw [List.flatMap_cons, List.length_append, hf, flatMap_const_length f k hf tl,
      List.length_cons]
    ring

/-- Writing one whole row of pixels after a filled prefix. -/
theorem rowWrite (g : ℕ → Color) (pre : List ℤ) :
    ∀ (w m : ℕ),
      (List.range w).foldl (fun pix x => pixStore pix (pre.length + x * 3) (g x))
        (pre ++ List.replicate (3 * w + m) 0) =
      pre ++ ((List.range w).flatMap fun x =>
        [clamp ((g x).1 : ℚ), clamp ((g x).2.1 : ℚ), clamp ((g x).2.2 : ℚ)]) ++
        List.replicate m 0
  | 0, m => by simp
  | w + 1, m => by
    rw [List.range_succ, List.foldl_append]
    rw [show 3 * (w + 1) + m = 3 * w + (3 + m) from by omega]
    rw [rowWrite g pre w (3 + m)]
    simp only [List.foldl_cons, List.foldl_nil]
    have hlen : pre.length + w * 3 =
        (pre ++ (List.range w).flatMap fun x =>
          [clamp ((g x).1 : ℚ), clamp ((g x).2.1 : ℚ), clamp ((g x).2.2 : ℚ)]).length := by
      rw [List.length_append, flatMap_triple_length, List.length_range]
      omega
    rw [hlen, pixStore_append, List.flatMap_append]
    simp [List.append_assoc]

/-- Running the full nested write loop of `generate_artwork` on a zero buffer
produces the flat concatenation of clamped pixel triples. -/
theorem writeLoop_eq (cf : ℕ → ℕ → Color) (w : ℕ) :
    ∀ (h m : ℕ),
      (List.range h).foldl (fun pix y =>
        (List.range w).foldl (fun pix x => pixStore pix ((y * w + x) * 3) (cf x y)) pix)
        (List.replicate (h * (3 * w) + m) 0) =
      ((List.range h).flatMap fun y => (List.range w).flatMap fun x =>
        [clamp ((cf x y).1 : ℚ), clamp ((cf x y).2.1 : ℚ), clamp ((cf x y).2.2 : ℚ)]) ++
        List.replicate m 0
  | 0, m => by simp
  | h + 1, m => by
    rw [List.range_succ, List.foldl_append]
    rw [show (h + 1) * (3 * w) + m = h * (3 * w) + (3 * w + m) from by ring]
    rw [writeLoop_eq cf w h (3 * w + m)]
    simp only [List.foldl_cons, List.foldl_nil]
    have hpre : ∀ z : List ℤ,
        (List.range w).foldl (fun pix x => pixStore pix ((h * w + x) * 3) (cf x h)) z =
        (List.range w).foldl (fun pix x => pixStore pix
          (((List.range h).flatMap fun y => (List.range w).flatMap fun x =>
            [clamp ((cf x y).1 : ℚ), clamp ((cf x y).2.1 : ℚ),
             clamp ((cf x y).2.2 : ℚ)]).length + x * 3) (cf x h)) z := by
      intro z
      have : (fun (pix : List ℤ) (x : ℕ) => pixStore pix ((h * w + x) * 3) (cf x h)) =
          fun (pix : List ℤ) (x : ℕ) => pixStore pix
            (((List.range h).flatMap fun y => (List.range w).flatMap fun x =>
              [clamp ((cf x y).1 : ℚ), clamp ((cf x y).2.1 : ℚ),
               clamp ((cf x y).2.2 : ℚ)]).length + x * 3) (cf x h) := by
        funext pix x
        have hlen : ((List.range h).flatMap fun y => (List.range w).flatMap fun x =>
            [clamp ((cf x y).1 : ℚ), clamp ((cf x y).2.1 : ℚ),
             clamp ((cf x y).2.2 : ℚ)]).length = h * (3 * w) := by
          rw [flatMap_const_length _ (3 * w)
            (fun y => by rw [flatMap_triple_length, List.length_range]) (List.range h),
            List.length_range]
        rw [hlen]
        congr 1
        ring
      rw [this]
    rw [hpre]
    rw [rowWrite]
    rw [List.flatMap_append]
    simp [List.append_assoc]

/-- For a known style `generate_artwork` succeeds and returns exactly the flat
list of clamped per-pixel colors. -/
theorem generate_known (ops : MathOps) (style : String) (colors : Color × Color × Color)
    (w h : ℕ) (hk : styleKnown style) :
    generate_artwork ops style colors w h =
      some (flatPixels (fun x y => styleColorD ops style colors w h x y) w h) := by
  unfold generate_artwork
  have hstep : ∀ (pix : List ℤ) (y : ℕ),
      (List.range w).foldl (fun opix x => opix.bind fun pix =>
        (styleColor ops style colors w h x y).map fun c =>
          pixStore pix ((y * w + x) * 3) c) (some pix) =
      some ((List.range w).foldl (fun pix x =>
        pixStore pix ((y * w + x) * 3) (styleColorD ops style colors w h x y)) pix) := by
    intro pix y
    apply foldl_some_lift
    intro s a
    rw [Option.some_bind, styleColor_known ops colors w h a y hk, Option.map_some']
  rw [foldl_some_lift _ _ hstep]
  rw [show w * h * 3 = h * (3 * w) + 0 from by ring, writeLoop_eq]
  simp [flatPixels]

/-- C10 (claim theorem): calling the generator with a style outside the ten
enumerated names fails (the Python code raises `NameError` before the very
first store) instead of returning any buffer. -/
theorem generate_artwork_unknown_style_fails (ops : MathOps) (style : String)
    (colors : Color × Color × Color) (w h : ℕ) (hk : ¬ styleKnown style)
    (hw : 1 ≤ w) (hh : 1 ≤ h) :
    generate_artwork ops style colors w h = none := by
  obtain ⟨w', rfl⟩ : ∃ w', w = w' + 1 := ⟨w - 1, by omega⟩
  obtain ⟨h', rfl⟩ : ∃ h', h = h' + 1 := ⟨h - 1, by omega⟩
  unfold generate_artwork
  rw [List.range_succ_eq_map h']
  simp only [List.foldl_cons]
  rw [List.range_succ_eq_map w']
  simp only [List.foldl_cons]
  rw [Option.some_bind, styleColor_unknown ops colors (w' + 1) (h' + 1) 0 0 hk]
  rw [Option.map_none']
  rw [foldl_none_fix _ (fun a => rfl)]
  refine foldl_none_fix _ ?_ _
  intro a
  exact foldl_none_fix _ (fun b => rfl) _

/-- Both bounds of `clamp`. -/
theorem clamp_bounds (q : ℚ) : 0 ≤ clamp q ∧ clamp q ≤ 255 :=
  ⟨le_max_left 0 _, max_le (by norm_num) (min_le_left 255 _)⟩

/-- C3 (claim theorem): for each of the ten styles, any palette and positive
dimensions, every entry of the returned buffer lies in `[0, 255]` (the stores
clamp every channel). -/
theorem generate_artwork_channels_in_range (ops : MathOps) (style : String)
    (colors : Color × Color × Color) (w h : ℕ) (buf : List ℤ)
    (hk : styleKnown style) (hw : 1 ≤ w) (hh : 1 ≤ h)
    (hbuf : generate_artwork ops style colors w h = some buf) :
    ∀ v ∈ buf, 0 ≤ v ∧ v ≤ 255 := by
  rw [generate_known ops style colors w h hk] at hbuf
  obtain rfl := (Option.some.injEq _ _).mp hbuf
  intro v hv
  unfold flatPixels at hv
  rw [List.mem_flatMap] at hv
  obtain ⟨y, -, hv⟩ := hv
  rw [List.mem_flatMap] at hv
  obtain ⟨x, -, hv⟩ := hv
  simp only [List.mem_cons, List.not_mem_nil, or_false] at hv
  rcases hv with rfl | rfl | rfl <;> exact clamp_bounds _

/-- Witness for C3 at the retro record, `w = h = 1`. -/
theorem generate_artwork_channels_in_range_witness :
    styleKnown retroStyle ∧ 1 ≤ 1 ∧
      (∀ v ∈ flatPixels (fun x y => styleColorD zeroOps retroStyle retroPalette 1 1 x y) 1 1,
        0 ≤ v ∧ v ≤ 255) :=
  ⟨Or.inr (Or.inr (Or.inr (Or.inr (Or.inl rfl)))), le_rfl,
    generate_artwork_channels_in_range zeroOps retroStyle retroPalette 1 1 _
      (Or.inr (Or.inr (Or.inr (Or.inr (Or.inl rfl))))) le_rfl le_rfl
      (generate_known zeroOps retroStyle retroPalette 1 1
        (Or.inr (Or.inr (Or.inr (Or.inr (Or.inl rfl))))))⟩

/-- C4 (claim theorem): for each of the ten styles, any palette and positive
dimensions, the returned buffer has length exactly `w * h * 3`. -/
theorem generate_artwork_length (ops : MathOps) (style : String)
    (colors : Color × Color × Color) (w h : ℕ) (buf : List ℤ)
    (hk : styleKnown style) (hw : 1 ≤ w) (hh : 1 ≤ h)
    (hbuf : generate_artwork ops style colors w h = some buf) :
    buf.length = w * h * 3 := by
  rw [generate_known ops style colors w h hk] at hbuf
  obtain rfl := (Option.some.injEq _ _).mp hbuf
  unfold flatPixels
  rw [flatMap_const_length _ (3 * w)
    (fun y => by rw [flatMap_triple_length, List.length_range]) (List.range h),
    List.length_range]
  ring

/-- Witness for C4 at the retro record, `w = h = 1`. -/
theorem generate_artwork_length_witness :
    styleKnown retroStyle ∧ 1 ≤ 1 ∧
      (flatPixels (fun x y => styleColorD zeroOps retroStyle retroPalette 1 1 x y) 1 1).length =
        1 * 1 * 3 :=
  ⟨Or.inr (Or.inr (Or.inr (Or.inr (Or.inl rfl)))), le_rfl,
    generate_artwork_length zeroOps retroStyle retroPalette 1 1 _
      (Or.inr (Or.inr (Or.inr (Or.inr (Or.inl rfl))))) le_rfl le_rfl
      (generate_known zeroOps retroStyle retroPalette 1 1
        (Or.inr (Or.inr (Or.inr (Or.inr (Or.inl rfl))))))⟩

/-- C5 (claim theorem): the generator is a pure function of its arguments:
given extensionally equal numeric primitives (in particular the same
coordinate-hash function), two invocations with identical style, palette and
dimensions return element-for-element identical buffers. -/
theorem generate_artwork_deterministic (ops1 ops2 : MathOps) (style : String)
    (colors : Color × Color × Color) (w h : ℕ)
    (hsqrt : ∀ q, ops1.sqrt q = ops2.sqrt q)
    (hsin : ∀ q, ops1.sin q = ops2.sin q)
    (hcos : ∀ q, ops1.cos q = ops2.cos q)
    (hatan2 : ∀ a b, ops1.atan2 a b = ops2.atan2 a b)
    (hpow : ∀ a b, ops1.pow a b = ops2.pow a b)
    (hhashI : ∀ n, ops1.hashI n = ops2.hashI n)
    (hhashP : ∀ a b, ops1.hashP a b = ops2.hashP a b) :
    generate_artwork ops1 style colors w h = generate_artwork ops2 style colors w h := by
  have hops : ops1 = ops2 := by
    cases ops1
    cases ops2
    simp only [MathOps.mk.injEq]
    exact ⟨funext hsqrt, funext hsin, funext hcos,
      funext fun a => funext fun b => hatan2 a b,
      funext fun a => funext fun b => hpow a b,
      funext hhashI, funext fun a => funext fun b => hhashP a b⟩
  rw [hops]

/-- Witness for C5 with both argument records equal to `zeroOps`. -/
theorem generate_artwork_deterministic_witness :
    (∀ q, zeroOps.sqrt q = zeroOps.sqrt q) ∧
      generate_artwork zeroOps retroStyle retroPalette 2 2 =
        generate_artwork zeroOps retroStyle retroPalette 2 2 :=
  ⟨fun _ => rfl,
    generate_artwork_deterministic zeroOps zeroOps retroStyle retroPalette 2 2
      (fun _ => rfl) (fun _ => rfl) (fun _ => rfl) (fun _ _ => rfl) (fun _ _ => rfl)
      (fun _ => rfl) (fun _ _ => rfl)⟩

/-- Python `int` of an integer-valued rational is the integer itself. -/
theorem pyInt_intCast (n : ℤ) : pyInt (n : ℚ) = n := by
  unfold pyInt
  split
  · rw [← Int.cast_neg, Int.floor_intCast]
    omega
  · exact Int.floor_intCast n

/-- Clamping an integer-valued rational. -/
theorem clamp_intCast (n : ℤ) : clamp (n : ℚ) = max 0 (min 255 n) := by
  unfold clamp
  rw [pyInt_intCast]

/-- Element access in a flat of constant-length pieces. -/
theorem flat_getD (L : ℕ) :
    ∀ (n : ℕ) (f : ℕ → List ℤ), (∀ k, (f k).length = L) →
      ∀ (k j : ℕ), k < n → j < L →
        ((List.range n).flatMap f).getD (k * L + j) 0 = (f k).getD j 0
  | 0, _, _, k, _, hk, _ => absurd hk (Nat.not_lt_zero k)
  | n + 1, f, hf, k, j, hk, hj => by
    rw [List.range_succ_eq_map, List.flatMap_cons, List.flatMap_map]
    cases k with
    | zero =>
      rw [Nat.zero_mul, Nat.zero_add]
      exact List.getD_append _ _ _ j (by rw [hf 0]; exact hj)
    | succ k' =>
      rw [List.getD_append_right _ _ _ _ (by rw [hf 0, Nat.succ_mul]; omega)]
      rw [hf 0, show (k' + 1) * L + j - L = k' * L + j from by rw [Nat.succ_mul]; omega]
      exact flat_getD L n (fun a => f (a + 1)) (fun a => hf (a + 1)) k' j (by omega) hj

/-- The color triple stored at pixel `(x, y)` of the flat buffer. -/
theorem flatPixels_pixel (cf : ℕ → ℕ → Color) (w h x y : ℕ) (hx : x < w) (hy : y < h) :
    bufPixel (flatPixels cf w h) w x y =
      (clamp ((cf x y).1 : ℚ), clamp ((cf x y).2.1 : ℚ), clamp ((cf x y).2.2 : ℚ)) := by
  have hrowlen : ∀ k, ((List.range w).flatMap fun x =>
      [clamp ((cf x k).1 : ℚ), clamp ((cf x k).2.1 : ℚ),
       clamp ((cf x k).2.2 : ℚ)]).length = 3 * w :=
    fun k => by rw [flatMap_triple_length, List.length_range]
  have key : ∀ j, j < 3 →
      (flatPixels cf w h).getD ((y * w + x) * 3 + j) 0 =
        [clamp ((cf x y).1 : ℚ), clamp ((cf x y).2.1 : ℚ),
         clamp ((cf x y).2.2 : ℚ)].getD j 0 := by
    intro j hj
    unfold flatPixels
    rw [show (y * w + x) * 3 + j = y * (3 * w) + (x * 3 + j) from by ring]
    rw [flat_getD (3 * w) h _ hrowlen y (x * 3 + j) hy (by omega)]
    exact flat_getD 3 w
      (fun a => [clamp ((cf a y).1 : ℚ), clamp ((cf a y).2.1 : ℚ), clamp ((cf a y).2.2 : ℚ)])
      (fun _ => rfl) x j hx hj
  have k0 := key 0 (by omega)
  have k1 := key 1 (by omega)
  have k2 := key 2 (by omega)
  rw [Nat.add_zero] at k0
  unfold bufPixel
  rw [k0, k1, k2]
  rfl

/-- The per-pixel color of the retro artwork anywhere in the central coarse
cell `(16, 16)` is the head color `c1` of the palette. -/
theorem retroColor_center (x y : ℕ) (hx1 : 256 ≤ x) (hx2 : x < 272)
    (hy1 : 256 ≤ y) (hy2 : y < 272) (c1 c2 : Color) :
    retroColor c1 c2 x y = c1 := by
  have hpx : x / 16 = 16 := by omega
  have hpy : y / 16 = 16 := by omega
  unfold retroColor SIZE
  rw [hpx, hpy]
  norm_num

/-- C9 (claim theorem): for the retro artwork at 512 by 512, every pixel in
the central 16 by 16 coarse cell carries the sprite head color, not either
checkerboard background color. -/
theorem retro_center_cell_not_background (ops : MathOps) (x y : ℕ)
    (hx1 : 256 ≤ x) (hx2 : x < 272) (hy1 : 256 ≤ y) (hy2 : y < 272) :
    bufPixel ((generate_artwork ops retroStyle retroPalette 512 512).getD []) 512 x y ≠
        (40, 40, 40) ∧
      bufPixel ((generate_artwork ops retroStyle retroPalette 512 512).getD []) 512 x y ≠
        (50, 50, 50) := by
  rw [generate_known ops retroStyle retroPalette 512 512
    (Or.inr (Or.inr (Or.inr (Or.inr (Or.inl rfl)))))]
  rw [Option.getD_some]
  rw [flatPixels_pixel _ _ _ _ _ (by omega) (by omega)]
  have hcol : styleColorD ops retroStyle retroPalette 512 512 x y = (0, 200, 0) := by
    unfold styleColorD styleColor retroStyle
    norm_num
    exact retroColor_center x y hx1 hx2 hy1 hy2 _ _
  rw [hcol]
  constructor <;> intro hcontra <;> norm_num [clamp, pyInt] at hcontra

/-- Witness for C9 at the cell corner pixel `(256, 256)`. -/
theorem retro_center_cell_not_background_witness :
    256 ≤ 256 ∧ 256 < 272 ∧
      (bufPixel ((generate_artwork zeroOps retroStyle retroPalette 512 512).getD [])
          512 256 256 ≠ (40, 40, 40) ∧
        bufPixel ((generate_artwork zeroOps retroStyle retroPalette 512 512).getD [])
          512 256 256 ≠ (50, 50, 50)) :=
  ⟨le_rfl, by omega,
    retro_center_cell_not_background zeroOps 256 256 le_rfl (by omega) le_rfl (by omega)⟩

/-- Witness for C10 at the style name outside the table. -/
theorem generate_artwork_unknown_style_fails_witness :
    ¬ styleKnown unknownStyle ∧ 1 ≤ 1 ∧
      generate_artwork zeroOps unknownStyle retroPalette 1 1 = none :=
  ⟨by decide, le_rfl,
    generate_artwork_unknown_style_fails zeroOps unknownStyle retroPalette 1 1
      (by decide) le_rfl le_rfl⟩

/-- Length of the big-endian encoding. -/
theorem u32be_length (n : ℕ) : (u32be n).length = 4 := rfl

/-- Decoding the big-endian encoding of a value below `2^32`. -/
theorem beVal_u32be {n : ℕ} (hn : n < 2^32) : beVal (u32be n) = n := by
  simp only [beVal, u32be, List.foldl_cons, List.foldl_nil]
  omega

/-- `struct.pack('>I', n)` succeeds below `2^32`. -/
theorem pack32_some {n : ℕ} (hn : n < 2^32) : pack32 n = some (u32be n) := by
  unfold pack32
  rw [if_pos hn]

/-- Inversion for a successful `struct.pack('>I', n)`. -/
theorem pack32_inv {n : ℕ} {b : List ℕ} (h : pack32 n = some b) :
    n < 2^32 ∧ b = u32be n := by
  unfold pack32 at h
  split at h
  · exact ⟨by assumption, ((Option.some.injEq _ _).mp h).symm⟩
  · exact absurd h (by simp)

/-- A chunk whose payload fits the length field is emitted with the layout of
`chunkBytes`. -/
theorem chunk_eq {t p : List ℕ} (hp : p.length < 2^32) :
    chunk t p = some (chunkBytes t p) := by
  unfold chunk chunkBytes
  rw [pack32_some hp, pack32_some (Nat.mod_lt _ (by norm_num))]
  simp [List.append_assoc]

/-- Inversion for a successfully emitted chunk. -/
theorem chunk_inv {t p b : List ℕ} (h : chunk t p = some b) :
    p.length < 2^32 ∧ b = chunkBytes t p := by
  unfold chunk at h
  rw [Option.bind_eq_some] at h
  obtain ⟨lenB, hlen, h⟩ := h
  rw [Option.map_eq_some'] at h
  obtain ⟨crcB, hcrc, h⟩ := h
  obtain ⟨hp, rfl⟩ := pack32_inv hlen
  obtain ⟨-, rfl⟩ := pack32_inv hcrc
  refine ⟨hp, ?_⟩
  rw [← h]
  unfold chunkBytes
  simp [List.append_assoc]

/-- Inversion for a successfully built IHDR payload. -/
theorem ihdrPayload_inv {w h : ℕ} {p : List ℕ} (hp : ihdrPayload w h = some p) :
    w < 2^32 ∧ h < 2^32 ∧ p = u32be w ++ u32be h ++ [8, 2, 0, 0, 0] := by
  unfold ihdrPayload at hp
  rw [Option.bind_eq_some] at hp
  obtain ⟨wb, hwb, hp⟩ := hp
  rw [Option.map_eq_some'] at hp
  obtain ⟨hb, hhb, hp⟩ := hp
  obtain ⟨hw32, rfl⟩ := pack32_inv hwb
  obtain ⟨hh32, rfl⟩ := pack32_inv hhb
  exact ⟨hw32, hh32, hp.symm⟩

/-- `bytes(l)` succeeds on byte values and returns them unchanged. -/
theorem pyBytes_some {l : List ℕ} (hl : ∀ v ∈ l, v < 256) : pyBytes l = some l := by
  unfold pyBytes
  rw [if_pos]
  rw [List.all_eq_true]
  intro x hx
  simpa using hl x hx

/-- Appending-accumulator folds build the flat of the pieces. -/
theorem foldl_append_flatMap {α β : Type _} (f : α → List β) :
    ∀ (l : List α) (init : List β),
      l.foldl (fun r a => r ++ f a) init = init ++ l.flatMap f
  | [], init => by simp
  | a :: tl, init => by
    rw [List.foldl_cons, foldl_append_flatMap f tl, List.flatMap_cons, List.append_assoc]

/-- For a byte-valued pixel buffer the raw scanline construction succeeds and
yields, for each row, a filter byte `0` followed by the row's pixel slices. -/
theorem rawScanlines_eq (pixels : List ℕ) (w h : ℕ) (hv : ∀ v ∈ pixels, v < 256) :
    rawScanlines pixels w h = some ((List.range h).flatMap fun y =>
      0 :: ((List.range w).flatMap fun x => (pixels.drop ((y * w + x) * 3)).take 3)) := by
  unfold rawScanlines
  have hslice : ∀ i : ℕ, pyBytes ((pixels.drop i).take 3) = some ((pixels.drop i).take 3) :=
    fun i => pyBytes_some fun v hvmem =>
      hv v (List.mem_of_mem_drop (List.mem_of_mem_take hvmem))
  have hstep : ∀ (a : List ℕ) (y : ℕ),
      (List.range w).foldl (fun acc x => acc.bind fun r =>
        (pyBytes ((pixels.drop ((y * w + x) * 3)).take 3)).map fun b => r ++ b)
        ((some a).map fun r => r ++ [0]) =
      some (a ++ (0 :: ((List.range w).flatMap fun x =>
        (pixels.drop ((y * w + x) * 3)).take 3))) := by
    intro a y
    rw [Option.map_some']
    rw [foldl_some_lift _ (fun r x => r ++ (pixels.drop ((y * w + x) * 3)).take 3)
      (fun s x => by rw [Option.some_bind, hslice, Option.map_some'])]
    rw [foldl_append_flatMap, List.append_assoc]
    rfl
  rw [foldl_some_lift _ (fun a y => a ++ (0 :: ((List.range w).flatMap fun x =>
    (pixels.drop ((y * w + x) * 3)).take 3))) hstep]
  rw [foldl_append_flatMap (fun y => 0 :: ((List.range w).flatMap fun x =>
    (pixels.drop ((y * w + x) * 3)).take 3))]
  rw [List.nil_append]

/-- Inversion for a successful `make_png`: the stream is the signature plus
the three chunks, and all length fields fit. -/
theorem make_png_inv {compress : List ℕ → List ℕ} {pixels : List ℕ} {w h : ℕ}
    {png : List ℕ} (henc : make_png compress pixels w h = some png) :
    ∃ raw, w < 2^32 ∧ h < 2^32 ∧ rawScanlines pixels w h = some raw ∧
      (compress raw).length < 2^32 ∧
      png = pngSig ++ chunkBytes IHDRty (u32be w ++ u32be h ++ [8, 2, 0, 0, 0]) ++
        chunkBytes IDATty (compress raw) ++ chunkBytes IENDty [] := by
  unfold make_png at henc
  rw [Option.bind_eq_some] at henc
  obtain ⟨ihdrP, hip, henc⟩ := henc
  rw [Option.bind_eq_some] at henc
  obtain ⟨ihdr, hih, henc⟩ := henc
  rw [Option.bind_eq_some] at henc
  obtain ⟨raw, hraw, henc⟩ := henc
  rw [Option.bind_eq_some] at henc
  obtain ⟨idat, hid, henc⟩ := henc
  rw [Option.map_eq_some'] at henc
  obtain ⟨iend, hie, henc⟩ := henc
  obtain ⟨hw32, hh32, rfl⟩ := ihdrPayload_inv hip
  obtain ⟨-, rfl⟩ := chunk_inv hih
  obtain ⟨hcl, rfl⟩ := chunk_inv hid
  obtain ⟨-, rfl⟩ := chunk_inv hie
  exact ⟨raw, hw32, hh32, hraw, hcl, henc.symm⟩

/-- C2 (claim theorem): every byte stream `make_png` returns is exactly the
8-byte signature, an IHDR chunk with the header fields of the source, a single
IDAT chunk holding the compressed scanlines, and an empty IEND chunk, where
each chunk is length field, type tag, payload and the CRC-32 of
tag ++ payload (`chunkBytes`); in particular all emitted length fields fit in
32 bits.  (For buffers or dimensions on which the Python code would raise,
`make_png` returns nothing and the claim is about the returned stream.) -/
theorem png_stream_structure (compress : List ℕ → List ℕ) (pixels : List ℕ)
    (w h : ℕ) (png : List ℕ) (henc : make_png compress pixels w h = some png) :
    ∃ raw, rawScanlines pixels w h = some raw ∧
      png = pngSig ++ chunkBytes IHDRty (u32be w ++ u32be h ++ [8, 2, 0, 0, 0]) ++
        chunkBytes IDATty (compress raw) ++ chunkBytes IENDty [] ∧
      w < 2^32 ∧ h < 2^32 ∧ (compress raw).length < 2^32 := by
  obtain ⟨raw, hw32, hh32, hraw, hcl, hpng⟩ := make_png_inv henc
  exact ⟨raw, hraw, hpng, hw32, hh32, hcl⟩

/-- The encoder succeeds on the one-pixel byte buffer `[1, 2, 3]` with the
identity compressor (shown without evaluating the checksums). -/
theorem make_png_example :
    make_png id [1, 2, 3] 1 1 = some ((make_png id [1, 2, 3] 1 1).getD []) := by
  obtain ⟨png1, hmk⟩ : ∃ p, make_png id [1, 2, 3] 1 1 = some p := by
    unfold make_png
    rw [show ihdrPayload 1 1 = some (u32be 1 ++ u32be 1 ++ [8, 2, 0, 0, 0]) from by
      unfold ihdrPayload
      rw [pack32_some (by norm_num)]
      rfl]
    rw [Option.some_bind]
    rw [chunk_eq (by simp [u32be]), Option.some_bind]
    rw [rawScanlines_eq [1, 2, 3] 1 1 (by decide), Option.some_bind]
    rw [chunk_eq (by decide), Option.some_bind]
    rw [chunk_eq (by norm_num), Option.map_some']
    exact ⟨_, rfl⟩
  rw [hmk]
  rfl

/-- Witness for C2 on a one-pixel byte buffer with the identity compressor. -/
theorem png_stream_structure_witness :
    make_png id [1, 2, 3] 1 1 = some ((make_png id [1, 2, 3] 1 1).getD []) ∧
      ∃ raw, rawScanlines [1, 2, 3] 1 1 = some raw ∧
        (make_png id [1, 2, 3] 1 1).getD [] =
          pngSig ++ chunkBytes IHDRty (u32be 1 ++ u32be 1 ++ [8, 2, 0, 0, 0]) ++
            chunkBytes IDATty (id raw) ++ chunkBytes IENDty [] ∧
        1 < 2^32 ∧ 1 < 2^32 ∧ (id raw).length < 2^32 :=
  ⟨make_png_example, png_stream_structure id [1, 2, 3] 1 1 _ make_png_example⟩

/-- Reading back a chunk emitted by the encoder recovers tag, payload and the
remaining stream. -/
theorem readChunk_encode (t p rest : List ℕ) (ht : t.length = 4) (hp : p.length < 2^32) :
    readChunk (chunkBytes t p ++ rest) = some ((t, p), rest) := by
  obtain ⟨C, hC⟩ : ∃ C, crc32 (t ++ p) % 2^32 = C := ⟨_, rfl⟩
  have hs : chunkBytes t p ++ rest =
      u32be p.length ++ (t ++ (p ++ (u32be C ++ rest))) := by
    unfold chunkBytes
    rw [hC]
    simp [List.append_assoc]
  have htake : (chunkBytes t p ++ rest).take 4 = u32be p.length := by
    rw [hs]
    exact List.take_left' (u32be_length _)
  have hbe : beVal ((chunkBytes t p ++ rest).take 4) = p.length := by
    rw [htake]
    exact beVal_u32be hp
  have hdrop4 : (chunkBytes t p ++ rest).drop 4 = t ++ (p ++ (u32be C ++ rest)) := by
    rw [hs]
    exact List.drop_left' (u32be_length _)
  have hctype : ((chunkBytes t p ++ rest).drop 4).take 4 = t := by
    rw [hdrop4]
    exact List.take_left' ht
  have hdrop8 : (chunkBytes t p ++ rest).drop 8 = p ++ (u32be C ++ rest) := by
    rw [show (8 : ℕ) = 4 + 4 from rfl, ← List.drop_drop, hdrop4]
    exact List.drop_left' ht
  have hpayload : ((chunkBytes t p ++ rest).drop 8).take p.length = p := by
    rw [hdrop8]
    exact List.take_left' rfl
  have hdrop8L : (chunkBytes t p ++ rest).drop (8 + p.length) = u32be C ++ rest := by
    rw [← List.drop_drop, hdrop8]
    exact List.drop_left' rfl
  have hcrcB : ((chunkBytes t p ++ rest).drop (8 + p.length)).take 4 = u32be C := by
    rw [hdrop8L]
    exact List.take_left' (u32be_length _)
  have hdropAll : (chunkBytes t p ++ rest).drop (12 + p.length) = rest := by
    rw [show 12 + p.length = 8 + p.length + 4 from by omega, ← List.drop_drop, hdrop8L]
    exact List.drop_left' (u32be_length _)
  have hlen : 12 + p.length ≤ (chunkBytes t p ++ rest).length := by
    rw [hs]
    simp only [List.length_append, u32be_length, ht]
    omega
  unfold readChunk
  rw [hbe, hctype, hpayload, hcrcB, hdropAll, hC]
  rw [if_pos ⟨hlen, rfl⟩]

/-- Pointwise congruence for `List.flatMap`. -/
theorem flatMapCongr {α β : Type _} {f g : α → List β} :
    ∀ {l : List α}, (∀ a ∈ l, f a = g a) → l.flatMap f = l.flatMap g
  | [], _ => rfl
  | a :: tl, h => by
    rw [List.flatMap_cons, List.flatMap_cons, h a (by simp),
      flatMapCongr fun b hb => h b (by simp [hb])]

/-- A list of length `m * c` is the flat of its `m` successive `c`-slices. -/
theorem chunksJoin (c : ℕ) :
    ∀ (m : ℕ) (l : List ℕ), l.length = m * c →
      (List.range m).flatMap (fun k => (l.drop (k * c)).take c) = l
  | 0, l, hl => by
    rw [Nat.zero_mul] at hl
    rw [List.range_zero, List.flatMap_nil]
    exact (List.length_eq_zero.mp hl).symm
  | m + 1, l, hl => by
    rw [List.range_succ_eq_map, List.flatMap_cons, List.flatMap_map]
    rw [Nat.zero_mul, List.drop_zero]
    have hshift : ∀ k : ℕ, (l.drop ((k + 1) * c)).take c = ((l.drop c).drop (k * c)).take c := by
      intro k
      rw [List.drop_drop, show c + k * c = (k + 1) * c from by ring]
    rw [flatMapCongr fun k _ => hshift k]
    rw [chunksJoin c m (l.drop c) (by rw [List.length_drop, hl, Nat.succ_mul]; omega)]
    exact List.take_append_drop c l

/-- One row's pixel slices joined together form the row segment of the buffer. -/
theorem rowSlices_eq (pixels : List ℕ) (w y : ℕ)
    (hlen : y * (3 * w) + 3 * w ≤ pixels.length) :
    ((List.range w).flatMap fun x => (pixels.drop ((y * w + x) * 3)).take 3) =
      (pixels.drop (y * (3 * w))).take (3 * w) := by
  have hseg : ((pixels.drop (y * (3 * w))).take (3 * w)).length = w * 3 := by
    rw [List.length_take, List.length_drop]
    omega
  have hjoin := chunksJoin 3 w ((pixels.drop (y * (3 * w))).take (3 * w)) hseg
  rw [← hjoin]
  refine flatMapCongr ?_
  intro x hx
  rw [List.mem_range] at hx
  rw [List.drop_take, List.drop_drop, List.take_take]
  rw [show y * (3 * w) + x * 3 = (y * w + x) * 3 from by ring]
  rw [Nat.min_eq_left (by omega)]

/-- Undoing the filter-0 framing of `h` rows of length `3 * w`. -/
theorem defilterRows_flat (w : ℕ) :
    ∀ (h : ℕ) (row : ℕ → List ℕ), (∀ y, y < h → (row y).length = 3 * w) →
      defilterRows w h ((List.range h).flatMap fun y => 0 :: row y) =
        some ((List.range h).flatMap row)
  | 0, row, _ => by simp [defilterRows]
  | h + 1, row, hrow => by
    rw [List.range_succ_eq_map, List.flatMap_cons, List.flatMap_map, List.cons_append]
    simp only [defilterRows]
    rw [if_pos (by rw [List.length_append, hrow 0 (by omega)]; omega)]
    rw [List.take_left' (hrow 0 (by omega)), List.drop_left' (hrow 0 (by omega))]
    rw [defilterRows_flat w h (fun y => row (y + 1)) fun y hy => hrow (y + 1) (by omega)]
    rw [Option.map_some', List.flatMap_cons, List.flatMap_map]

/-- C1 (claim theorem): a conformant decoder applied to the stream `make_png`
produces for a `w*h*3` byte buffer recovers exactly the requested width and
height, bit depth 8, color type 2 (truecolor) and the input pixels; the
decompressed IDAT payload is, row by row, a filter byte 0 followed by the
row's pixel bytes unmodified.  `compress`/`decompress` are any deflate pair
(`decompress ∘ compress = id`, the contract of `zlib`). -/
theorem png_decode_encode_roundtrip (compress decompress : List ℕ → List ℕ)
    (pixels : List ℕ) (w h : ℕ) (png : List ℕ)
    (hinv : ∀ l, decompress (compress l) = l)
    (hw : 1 ≤ w) (hh : 1 ≤ h)
    (hlen : pixels.length = w * h * 3)
    (hv : ∀ v ∈ pixels, v ≤ 255)
    (henc : make_png compress pixels w h = some png) :
    parsePNG decompress png = some (w, h, 8, 2, pixels) := by
  obtain ⟨raw, hw32, hh32, hraw, hcl, hpng⟩ := make_png_inv henc
  subst hpng
  rw [rawScanlines_eq pixels w h fun v hv' => by have := hv v hv'; omega] at hraw
  obtain rfl := (Option.some.injEq _ _).mp hraw
  have hP13 : (u32be w ++ (u32be h ++ [8, 2, 0, 0, 0])).length = 13 := by
    simp [u32be]
  have hPdrop10 : (u32be w ++ (u32be h ++ [8, 2, 0, 0, 0])).drop 10 = [0, 0, 0] := by
    simp [u32be]
  have hP8 : (u32be w ++ (u32be h ++ [8, 2, 0, 0, 0])).getD 8 0 = 8 := by
    simp [u32be]
  have hP9 : (u32be w ++ (u32be h ++ [8, 2, 0, 0, 0])).getD 9 0 = 2 := by
    simp [u32be]
  have hPw : beVal ((u32be w ++ (u32be h ++ [8, 2, 0, 0, 0])).take 4) = w := by
    rw [List.take_left' (u32be_length _)]
    exact beVal_u32be hw32
  have hPh : beVal (((u32be w ++ (u32be h ++ [8, 2, 0, 0, 0])).drop 4).take 4) = h := by
    rw [List.drop_left' (u32be_length _), List.take_left' (u32be_length _)]
    exact beVal_u32be hh32
  have hrowbound : ∀ y, y < h → y * (3 * w) + 3 * w ≤ pixels.length := by
    intro y hy
    have h1 : (y + 1) * (3 * w) ≤ h * (3 * w) := Nat.mul_le_mul_right _ (by omega)
    calc y * (3 * w) + 3 * w = (y + 1) * (3 * w) := by ring
      _ ≤ h * (3 * w) := h1
      _ = w * h * 3 := by ring
      _ = pixels.length := hlen.symm
  have hrowlen : ∀ y, y < h →
      (((List.range w).flatMap fun x => (pixels.drop ((y * w + x) * 3)).take 3)).length =
        3 * w := by
    intro y hy
    rw [rowSlices_eq pixels w y (hrowbound y hy)]
    rw [List.length_take, List.length_drop]
    have := hrowbound y hy
    omega
  have hjoin : ((List.range h).flatMap fun y =>
      (List.range w).flatMap fun x => (pixels.drop ((y * w + x) * 3)).take 3) = pixels := by
    rw [flatMapCongr fun y hy =>
      rowSlices_eq pixels w y (hrowbound y (List.mem_range.mp hy))]
    exact chunksJoin (3 * w) h pixels (by rw [hlen]; ring)
  unfold parsePNG
  simp only [List.append_assoc]
  rw [List.take_left' (show pngSig.length = 8 from rfl), if_pos rfl]
  rw [List.drop_left' (show pngSig.length = 8 from rfl)]
  rw [readChunk_encode IHDRty _ _ rfl (by rw [hP13]; norm_num)]
  simp only [Option.some_bind]
  rw [if_pos (by
    exact ⟨trivial, hP13, hPdrop10, hP8, hP9,
      le_of_le_of_eq hw hPw.symm, le_of_le_of_eq hh hPh.symm⟩)]
  rw [readChunk_encode IDATty _ _ rfl hcl]
  rw [Option.some_bind]
  beta_reduce
  rw [if_pos rfl]
  rw [← List.append_nil (chunkBytes IENDty [])]
  rw [readChunk_encode IENDty [] [] rfl (by norm_num)]
  rw [Option.some_bind]
  beta_reduce
  rw [if_pos ⟨rfl, rfl, rfl⟩]
  rw [hPw, hPh, hP8, hP9, hinv]
  rw [defilterRows_flat w h _ hrowlen]
  rw [Option.map_some', hjoin]

/-- Witness for C1 on a one-pixel byte buffer with identity compression. -/
theorem png_decode_encode_roundtrip_witness :
    (∀ l : List ℕ, id (id l) = l) ∧ 1 ≤ 1 ∧ ([(1 : ℕ), 2, 3].length = 1 * 1 * 3) ∧
      (∀ v ∈ [(1 : ℕ), 2, 3], v ≤ 255) ∧
      parsePNG id ((make_png id [1, 2, 3] 1 1).getD []) = some (1, 1, 8, 2, [1, 2, 3]) :=
  ⟨fun _ => rfl, le_rfl, rfl, by decide,
    png_decode_encode_roundtrip id id [1, 2, 3] 1 1 _ (fun _ => rfl) le_rfl le_rfl rfl
      (by decide) make_png_example⟩

/-- Building a file path from a fixed directory is injective in the file name. -/
theorem pathInj (out_dir : String) :
    ∀ a b : String, filePath out_dir a = filePath out_dir b → a = b := by
  intro a b h
  unfold filePath at h
  have hd := congrArg String.data h
  simp only [String.data_append] at hd
  simp only [List.append_assoc] at hd
  exact String.ext
    (List.append_cancel_right (List.append_cancel_left (List.append_cancel_left hd)))

/-- Looking up a record keyed by an injectively transformed identifier in the
transformed association list built by the save loop. -/
theorem lookup_keyed {beta : Type _} (f : String -> String)
    (hf : ∀ a b, f a = f b → a = b)
    (g : String × String × (Color × Color × Color) -> beta) :
    ∀ (l : List (String × String × (Color × Color × Color))) (u : String),
      (l.map fun r => (f r.1, g r)).lookup (f u) = (l.map fun r => (r.1, g r)).lookup u
  | [], _ => rfl
  | r :: tl, u => by
    by_cases huk : u = r.1
    · subst huk
      simp [List.lookup]
    · have h1 : (f u == f r.1) = false :=
        beq_eq_false_iff_ne.mpr fun hc => huk (hf _ _ hc)
      have h2 : (u == r.1) = false := beq_eq_false_iff_ne.mpr huk
      simp [List.lookup, h1, h2, lookup_keyed f hf g tl u]

set_option maxRecDepth 40000 in
/-- Looking up any record's identifier in the identifier-keyed table recovers
that record's associated value (the ten identifiers are distinct). -/
theorem lookup_artworks {beta : Type _} (G : String × String × (Color × Color × Color) -> beta) :
    ∀ r ∈ ARTWORKS, (ARTWORKS.map fun x => (x.1, G x)).lookup r.1 = some (G r) := by
  intro r hr
  fin_cases hr <;> rfl

/-- The upload body of each artwork is the PNG stream saved for it in phase
one (the file lookup by path resolves to that record's bytes). -/
theorem uploadBody_eq (ops : MathOps) (compress : List ℕ -> List ℕ) (out_dir : String) :
    ∀ r ∈ ARTWORKS, uploadBody ops compress out_dir r.1 = pngFor ops compress r := by
  intro r hr
  unfold uploadBody savedFiles
  rw [lookup_keyed (filePath out_dir) (pathInj out_dir) (pngFor ops compress) ARTWORKS r.1]
  rw [lookup_artworks (pngFor ops compress) r hr]
  rw [Option.join]
  rw [Option.some_bind]
  exact id_eq _

set_option maxRecDepth 40000 in
/-- C6 (counterexample): the event trace of `main` is not the per-record
interleaving generate → encode → save → put → report claimed by the spec:
the code runs one loop that generates, encodes and saves all ten artworks
and only then a second loop that uploads them. -/
theorem main_interleaved_order_counterexample :
    (mainTrace zeroOps id ("out")).map evTag ≠
      ARTWORKS.flatMap fun r => [(0, r.1), (1, r.1), (2, r.1), (3, r.1), (4, r.1)] := by
  decide

set_option maxRecDepth 40000 in
/-- C6 (amended claim theorem): `main` processes the ten records strictly in
list order but in two sequential phases: first generate → encode → save for
every record in order, then one PUT and one report for every record in order;
in particular every artwork is generated, encoded and saved before any upload
happens. -/
theorem main_two_phase_order (ops : MathOps) (compress : List ℕ → List ℕ)
    (out_dir : String) :
    (mainTrace ops compress out_dir).map evTag =
      (ARTWORKS.flatMap fun r => [(0, r.1), (1, r.1), (2, r.1)]) ++
        ARTWORKS.flatMap fun r => [(3, r.1), (4, r.1)] := rfl

/-- C7 (claim theorem): the trace of `main` contains exactly one PUT per
artwork record, in order, whose URL is the fixed base
`http://192.168.1.54:9000/` followed by the object key
`artworks/{identifier}.png`, whose header is `Content-Type: image/png`, and
whose body is that record's PNG bytes; and the URL built for the first
identifier carries exactly the claimed object key. -/
theorem upload_put_requests_spec (ops : MathOps) (compress : List ℕ → List ℕ)
    (out_dir : String) :
    (mainTrace ops compress out_dir).filterMap putInfo =
      (ARTWORKS.map fun r =>
        ("http://192.168.1.54:9000/" ++ ("artworks/" ++ r.1 ++ ".png"), "image/png",
          pngFor ops compress r)) ∧
    uploadUrl ("b0000001-0000-0000-0000-000000000001") =
      "http://192.168.1.54:9000/" ++ "artworks/b0000001-0000-0000-0000-000000000001.png" := by
  constructor
  · have hphase2 : (ARTWORKS.flatMap fun r =>
        [Ev.put r.1 (uploadUrl r.1) ("image/png") (uploadBody ops compress out_dir r.1),
         Ev.report r.1]) =
        ARTWORKS.flatMap fun r =>
          [Ev.put r.1 (uploadUrl r.1) ("image/png") (pngFor ops compress r),
           Ev.report r.1] :=
      flatMapCongr fun r hr => by rw [uploadBody_eq ops compress out_dir r hr]
    unfold mainTrace
    rw [hphase2]
    rfl
  · rfl

/-- Python `int` of a nonnegative value caught between `n` and `n + 1`. -/
theorem pyInt_eq_of (n : ℤ) (q : ℚ) (hn : 0 ≤ n) (hl : (n : ℚ) ≤ q) (hu : q < n + 1) :
    pyInt q = n := by
  have h0 : ¬ q < 0 := not_lt.mpr (le_trans (by exact_mod_cast hn) hl)
  unfold pyInt
  rw [if_neg h0]
  exact Int.floor_eq_iff.mpr ⟨hl, hu⟩

/-- Blending the sky color under the sun center with the sun color at any
blend weight in the range of `(95 / 96) ** 0.5`. -/
theorem lerp_sun_blend (p : ℚ) (hp1 : 9947/10000 ≤ p) (hp2 : p < 1) :
    lerp_color (125, 59, 68) (255, 220, 100) p = (254, 219, 99) := by
  unfold lerp_color
  push_cast
  have hr : pyInt (125 + (255 - 125) * p) = 254 :=
    pyInt_eq_of 254 _ (by norm_num) (by push_cast; linarith) (by push_cast; linarith)
  have hg : pyInt (59 + (220 - 59) * p) = 219 :=
    pyInt_eq_of 219 _ (by norm_num) (by push_cast; linarith) (by push_cast; linarith)
  have hb : pyInt (68 + (100 - 68) * p) = 99 :=
    pyInt_eq_of 99 _ (by norm_num) (by push_cast; linarith) (by push_cast; linarith)
  rw [hr, hg, hb]

/-- The sunset color of the pixel at `(256, 204)` of the 512 by 512 artwork
(just under the sun center), for any square root meeting elementary accuracy
bounds at the one argument it is called on and any power function meeting the
true range of `t ** 0.5` on the resulting interval of `t`. -/
theorem sunsetColor_at_center (ops : MathOps)
    (h1 : 1/640 - 1/1000000 ≤ ops.sqrt (1/409600))
    (h2 : ops.sqrt (1/409600) ≤ 1/640)
    (h4 : ∀ q : ℚ, 95/96 ≤ q → q ≤ 95/96 + 1/150000 →
      9947/10000 ≤ ops.pow q (1/2) ∧ ops.pow q (1/2) < 1) :
    sunsetColor ops (255, 120, 50) (255, 80, 120) (40, 20, 80) (1/2) (51/128) =
      (254, 219, 99) := by
  have harg : ((1/2 : ℚ) - 1/2)^2 + ((51/128 : ℚ) - 2/5)^2 = 1/409600 := by norm_num
  unfold sunsetColor
  rw [harg]
  rw [if_neg (by norm_num : ¬ (51/128 : ℚ) > 65/100)]
  rw [if_pos (lt_of_le_of_lt h2 (by norm_num))]
  have hbase : lerp_color (40, 20, 80) (255, 120, 50) (51/128) = (125, 59, 68) := by
    unfold lerp_color pyInt
    norm_num
  rw [hbase]
  have hdiv : ops.sqrt (1/409600) / (15/100) = ops.sqrt (1/409600) * (20/3) := by
    ring
  have ht1 : (95/96 : ℚ) ≤ 1 - ops.sqrt (1/409600) / (15/100) := by
    rw [hdiv]
    linarith
  have ht2 : 1 - ops.sqrt (1/409600) / (15/100) ≤ 95/96 + 1/150000 := by
    rw [hdiv]
    linarith
  obtain ⟨hp1, hp2⟩ := h4 _ ht1 ht2
  exact lerp_sun_blend _ hp1 hp2

/-- The sunset color of the corner pixel `(0, 0)`: far from the sun, so the
blend branch is not taken and the gradient start color `c3` is kept. -/
theorem sunsetColor_at_corner (ops : MathOps) (h3 : 3/20 ≤ ops.sqrt (41/100)) :
    sunsetColor ops (255, 120, 50) (255, 80, 120) (40, 20, 80) 0 0 = (40, 20, 80) := by
  have harg : ((0 : ℚ) - 1/2)^2 + ((0 : ℚ) - 2/5)^2 = 41/100 := by norm_num
  unfold sunsetColor
  rw [harg]
  rw [if_neg (by norm_num : ¬ (0 : ℚ) > 65/100)]
  rw [if_neg (not_lt.mpr (le_trans (by norm_num) h3))]
  unfold lerp_color pyInt
  norm_num

/-- C8 (claim theorem): for the sunset artwork at 512 by 512 with the sunset
record's palette, the color stored at pixel `(256, 204)` is strictly closer in
RGB distance to the sun color `(255, 220, 100)` than the color stored at the
corner pixel `(0, 0)`, for every square root meeting elementary accuracy
bounds at the two arguments it is called on and every power function whose
value on the resulting interval lies in the true range of `t ** 0.5`. -/
theorem sunset_sun_center_closer (ops : MathOps)
    (h1 : 1/640 - 1/1000000 ≤ ops.sqrt (1/409600))
    (h2 : ops.sqrt (1/409600) ≤ 1/640)
    (h3 : 3/20 ≤ ops.sqrt (41/100))
    (h4 : ∀ q : ℚ, 95/96 ≤ q → q ≤ 95/96 + 1/150000 →
      9947/10000 ≤ ops.pow q (1/2) ∧ ops.pow q (1/2) < 1) :
    rgbDistSq (bufPixel ((generate_artwork ops sunsetStyle sunsetPalette 512 512).getD [])
        512 256 204) (255, 220, 100) <
      rgbDistSq (bufPixel ((generate_artwork ops sunsetStyle sunsetPalette 512 512).getD [])
        512 0 0) (255, 220, 100) := by
  rw [generate_known ops sunsetStyle sunsetPalette 512 512 (Or.inl rfl)]
  rw [Option.getD_some]
  rw [flatPixels_pixel _ _ _ 256 204 (by omega) (by omega)]
  rw [flatPixels_pixel _ _ _ 0 0 (by omega) (by omega)]
  have hc : styleColorD ops sunsetStyle sunsetPalette 512 512 256 204 = (254, 219, 99) := by
    unfold styleColorD styleColor sunsetStyle sunsetPalette
    norm_num
    exact sunsetColor_at_center ops h1 h2 h4
  have hz : styleColorD ops sunsetStyle sunsetPalette 512 512 0 0 = (40, 20, 80) := by
    unfold styleColorD styleColor sunsetStyle sunsetPalette
    norm_num
    exact sunsetColor_at_corner ops h3
  rw [hc, hz]
  norm_num [rgbDistSq, clamp, pyInt]

/-- Witness for C8 at the concrete primitive instantiation `ops8`. -/
theorem sunset_sun_center_closer_witness :
    (1/640 - 1/1000000 ≤ ops8.sqrt (1/409600)) ∧ (ops8.sqrt (1/409600) ≤ 1/640) ∧
      (3/20 ≤ ops8.sqrt (41/100)) ∧
      (∀ q : ℚ, 95/96 ≤ q → q ≤ 95/96 + 1/150000 →
        9947/10000 ≤ ops8.pow q (1/2) ∧ ops8.pow q (1/2) < 1) ∧
      rgbDistSq (bufPixel ((generate_artwork ops8 sunsetStyle sunsetPalette 512 512).getD [])
          512 256 204) (255, 220, 100) <
        rgbDistSq (bufPixel ((generate_artwork ops8 sunsetStyle sunsetPalette 512 512).getD [])
          512 0 0) (255, 220, 100) :=
  ⟨by norm_num [ops8], by norm_num [ops8], by norm_num [ops8],
   fun q hq1 hq2 => by norm_num [ops8],
   sunset_sun_center_closer ops8 (by norm_num [ops8]) (by norm_num [ops8])
     (by norm_num [ops8]) (fun q hq1 hq2 => by norm_num [ops8])⟩

end Seed
